import Mathlib

/-!
Verification of the multi-strategy result-fusion and ranking engine of the
repository-similarity scout.

The JavaScript source is shallowly embedded: JS objects become structures,
JS numbers used for scores become rationals (`ℚ`), JS `null`/`undefined`
language fields become a three-valued type (strict equality `===`
distinguishes `null` from `undefined`), and the stable `Array.prototype.sort`
becomes an insertion sort (any stable sort computes the same list).
Collaborators (the GitHub search HTTP call, the SQL vector query) are
function / list parameters.

Embedded functions (file `ai-enhanced-scout.js` unless noted):
  - `UltraEnhancedGitHubClient.calculateRelevanceScore` (lines 389-414)
  - `UltraEnhancedGitHubClient.getStrategyScore` (lines 371-387)
  - the fusion loop of `UltraEnhancedGitHubClient.searchSimilarRepositories`
    (lines 141-173)
  - `UltraEnhancedGitHubClient.executeSearchStrategy` and the twelve query
    builders (lines 179-369)
  - `DatabaseCachedGitHubClient.findSimilarByEmbedding` and
    `DatabaseCachedGitHubClient.combineAndRankResults` (unnamed part_000)
  - the per-contributor weighting of
    `ContributorEnhancedGitHubClient.getContributorRepositories`
    (`enhanced-with-contributors.js`, lines 124-129)
-/

/-- A JavaScript language field: GitHub returns `null` when no language is
detected, and a repository object built from a failed fetch leaves the field
`undefined`; strict equality (`===`) distinguishes the two. -/
inductive JsLang where
  | jsNull
  | jsUndefined
  | str (s : String)
deriving DecidableEq

/-- JS strict equality (`===`) restricted to the values a language field can
hold: `null === null` and `undefined === undefined` are true, but
`null === undefined` is false; strings compare by content. -/
def jsLangEq : JsLang → JsLang → Bool
  | .jsNull, .jsNull => true
  | .jsUndefined, .jsUndefined => true
  | .str a, .str b => a == b
  | _, _ => false

/-- `repoData.language || ''`: a string language is kept (the empty string is
falsy and also maps to `''`), `null`/`undefined` map to `''`. -/
def jsLangToStr : JsLang → String
  | .str s => s
  | _ => ""

/-- JS truthiness of a nullable description: `null`/`undefined` and the empty
string are falsy. -/
def descTruthy : Option String → Bool
  | none => false
  | some s => !(s == "")

/-- A repository record as the scout passes it around: the fields set by
`executeSearchStrategy`'s result mapping (lines 232-242) plus the
`dependencies` and `owner` fields the target carries (lines 68-82). -/
structure CRepo where
  name : String := ""
  full_name : String
  url : String := ""
  stars : Nat := 0
  description : Option String := none
  language : JsLang := .jsNull
  topics : List String := []
  forks : Nat := 0
  updated : Option String := none
  dependencies : List String := []
  owner : Option String := none
deriving DecidableEq

/-- A character of the JS regex class `\w` = `[A-Za-z0-9_]`. -/
def isWordChar (c : Char) : Bool :=
  c.isAlphanum || c == '_'

/-- Split a character list at every character satisfying `p`, the splitting
characters being dropped (the semantics of `String.prototype.split`
with a single-character-class regex). -/
def splitChars (p : Char → Bool) : List Char → List Char → List String
  | [], acc => [⟨acc.reverse⟩]
  | c :: cs, acc =>
    if p c then ⟨acc.reverse⟩ :: splitChars p cs []
    else splitChars p cs (c :: acc)

/-- `s.toLowerCase()`, character by character. -/
def jsToLower (s : String) : String :=
  ⟨s.data.map Char.toLower⟩

/-- `description.toLowerCase().split(/\W+/)`, kept as the list of non-empty
tokens (splitting on a run of non-word characters yields the same non-empty
tokens as splitting at each one; the empty boundary tokens JS may produce
never pass the later `length > 3` filter, so they are dropped here). -/
def jsWords : Option String → List String
  | none => []
  | some s =>
    (splitChars (fun c => !(isWordChar c)) (jsToLower s).data []).filter fun w => w ≠ ""

/-- `[...new Set(repoWords)].filter(w => originalWords.has(w) && w.length > 3).length`
(lines 407-410): the number of distinct lowercased words of the candidate
description that also occur in the target description and are longer
than 3 characters. -/
def commonWordCount (repo originalRepo : CRepo) : Nat :=
  ((jsWords repo.description).dedup.filter fun w =>
    (jsWords originalRepo.description).contains w && w.length > 3).length

/-- `repoTopics.filter(t => originalTopics.includes(t)).length` (line 398). -/
def topicOverlapCount (repo originalRepo : CRepo) : Nat :=
  (repo.topics.filter fun t => originalRepo.topics.contains t).length

/-- `Math.min(repo.stars, originalRepo.stars) / Math.max(repo.stars, originalRepo.stars, 1)`
(line 402). -/
def starRatioQ (repo originalRepo : CRepo) : ℚ :=
  ((min repo.stars originalRepo.stars : Nat) : ℚ) /
    ((max repo.stars (max originalRepo.stars 1) : Nat) : ℚ)

/-- `UltraEnhancedGitHubClient.calculateRelevanceScore` (lines 389-414),
translated statement by statement (`score` is rebound at each `score +=`). -/
def calculateRelevanceScore (repo originalRepo : CRepo) : ℚ :=
  let score : ℚ := 0
  let score := if jsLangEq repo.language originalRepo.language then score + 10 else score
  let score := score + (topicOverlapCount repo originalRepo : ℚ) * 5
  let score := score + starRatioQ repo originalRepo * 5
  let score :=
    if descTruthy repo.description && descTruthy originalRepo.description then
      score + (commonWordCount repo originalRepo : ℚ) * 2
    else score
  score

/-- `UltraEnhancedGitHubClient.getStrategyScore` (lines 371-387):
`scores[strategyName] || 1`. -/
def getStrategyScore (strategyName : String) : ℚ :=
  if strategyName == "Language+Topics" then 5
  else if strategyName == "Dependencies" then 4
  else if strategyName == "Semantic" then 4
  else if strategyName == "Activity" then 3
  else if strategyName == "Architecture" then 3
  else if strategyName == "Domain" then 2
  else if strategyName == "TechStack" then 3
  else if strategyName == "Community" then 2
  else if strategyName == "Recent" then 3
  else if strategyName == "Name" then 2
  else if strategyName == "License" then 2
  else if strategyName == "Scale" then 2
  else 1

/-- Key lookup in an association list modelling a JS `Map` keyed by
`full_name` strings (`Map.prototype.get`). -/
def alookup {β : Type} (k : String) : List (String × β) → Option β
  | [] => none
  | p :: tl => if p.1 = k then some p.2 else alookup k tl

/-- The fusion accumulator entry (lines 158-165): the spread candidate record
plus the bookkeeping fields `strategy`, `strategies`, `score`,
`relevanceScore` and `finalScore`. -/
structure Fused where
  repo : CRepo
  strategy : String
  strategies : List String
  score : ℚ
  relevanceScore : ℚ
  finalScore : ℚ
deriving DecidableEq

/-- The entry created when a `full_name` is first seen (lines 158-165). -/
def mkFused (target : CRepo) (strategyName : String) (repo : CRepo) : Fused :=
  { repo := repo
    strategy := strategyName
    strategies := [strategyName]
    score := getStrategyScore strategyName
    relevanceScore := calculateRelevanceScore repo target
    finalScore := getStrategyScore strategyName + calculateRelevanceScore repo target }

/-- The in-place mutation applied when a `full_name` is seen again
(lines 154-156): push the strategy name and add its weight to `score`;
`finalScore` (and every other field) is left untouched. -/
def addStrategy (strategyName : String) (fc : Fused) : Fused :=
  { fc with
    strategies := fc.strategies ++ [strategyName]
    score := fc.score + getStrategyScore strategyName }

/-- Update the value stored under key `k` of an association list
(the JS `Map` entry mutated through `allResults.get(key)`). -/
def mapUpdate (m : List (String × Fused)) (k : String) (f : Fused → Fused) :
    List (String × Fused) :=
  m.map fun p => if p.1 = k then (p.1, f p.2) else p

/-- One iteration of the inner `result.value.forEach(repo => ...)`
(lines 151-167); a JS `Map` keeps insertion order, so a fresh key is
appended at the end. -/
def fuseOne (target : CRepo) (strategyName : String) (m : List (String × Fused))
    (repo : CRepo) : List (String × Fused) :=
  match alookup repo.full_name m with
  | some _ => mapUpdate m repo.full_name (addStrategy strategyName)
  | none => m ++ [(repo.full_name, mkFused target strategyName repo)]

/-- Folding one fulfilled strategy's result list into the accumulator. -/
def fuseStrategy (target : CRepo) (m : List (String × Fused))
    (p : String × List CRepo) : List (String × Fused) :=
  p.2.foldl (fuseOne target p.1) m

/-- The whole fusion loop over the per-strategy result lists, starting from
the empty `allResults` map (lines 141-169), for the case where every
strategy settled fulfilled. -/
def fuseAll (target : CRepo) (L : List (String × List CRepo)) :
    List (String × Fused) :=
  L.foldl (fuseStrategy target) []

/-- The fusion loop as written (lines 146-169): `Promise.allSettled` hands
over one outcome per strategy and `results.forEach` skips the rejected ones
(`result.status === 'fulfilled'`); `none` models a rejected strategy. -/
def fuseSettled (target : CRepo) (L : List (String × Option (List CRepo))) :
    List (String × Fused) :=
  L.foldl
    (fun m p =>
      match p.2 with
      | some rs => fuseStrategy target m (p.1, rs)
      | none => m)
    []

/-- Does the strategy result pair `p` surface the repository `f`? -/
def surfaces (f : String) (p : String × List CRepo) : Bool :=
  p.2.any fun r => r.full_name == f

/-- The strategy result pairs that surface `f`, in arrival order. -/
def surfacedBy (f : String) (L : List (String × List CRepo)) :
    List (String × List CRepo) :=
  L.filter (surfaces f)

/-- The sum of the base weights of the strategies that surfaced `f`. -/
def accumulatedWeight (f : String) (L : List (String × List CRepo)) : ℚ :=
  ((surfacedBy f L).map fun p => getStrategyScore p.1).sum

/-- The names of the strategies that surfaced `f`, in arrival order. -/
def matchedStrategies (f : String) (L : List (String × List CRepo)) : List String :=
  (surfacedBy f L).map Prod.fst

/-- The first strategy result pair surfacing `f`, together with the record it
reported (the record from which the fused entry is created). -/
def firstHit (f : String) : List (String × List CRepo) → Option (String × CRepo)
  | [] => none
  | p :: L =>
    match p.2.find? (fun r => r.full_name == f) with
    | some r => some (p.1, r)
    | none => firstHit f L

/-- The closed form of one candidate's fused entry: starting from the state
`o` stored under key `f`, after folding the whole strategy list `L`.  A
pre-existing entry gains the surfacing strategies' weights on `score` and
their names on `strategies` only; an entry created during the fold carries
the first surfacing strategy's weight and relevance in `finalScore`. -/
def fusedView (t : CRepo) (f : String) (L : List (String × List CRepo)) :
    Option Fused → Option Fused
  | some fc =>
    some { fc with
           score := fc.score + accumulatedWeight f L
           strategies := fc.strategies ++ matchedStrategies f L }
  | none =>
    (firstHit f L).map fun sr =>
      { repo := sr.2
        strategy := sr.1
        strategies := matchedStrategies f L
        score := accumulatedWeight f L
        relevanceScore := calculateRelevanceScore sr.2 t
        finalScore := getStrategyScore sr.1 + calculateRelevanceScore sr.2 t }

/-- The comparator `(a, b) => b.finalScore - a.finalScore` (line 172): `a`
precedes `b` exactly when `b.finalScore ≤ a.finalScore`. -/
def byFinalScore (a b : Fused) : Prop :=
  b.finalScore ≤ a.finalScore

instance : DecidableRel byFinalScore :=
  fun a b => inferInstanceAs (Decidable (b.finalScore ≤ a.finalScore))

instance : IsTotal Fused byFinalScore :=
  ⟨fun a b => le_total b.finalScore a.finalScore⟩

instance : IsTrans Fused byFinalScore :=
  ⟨fun _ _ _ h1 h2 => le_trans h2 h1⟩

/-- Lines 171-173: `Array.from(allResults.values()).sort((a, b) =>
b.finalScore - a.finalScore).slice(0, limit)`.  `Array.prototype.sort` is
required to be stable, so it is modelled by a stable insertion sort on the
values in map-insertion order. -/
def sortedResults (target : CRepo) (L : List (String × List CRepo))
    (limit : Nat) : List Fused :=
  (((fuseAll target L).map Prod.snd).insertionSort byFinalScore).take limit

/-- A raw GitHub search item, with the fields `executeSearchStrategy` reads
(lines 230-242). -/
structure RawRepo where
  name : String := ""
  full_name : String
  html_url : String := ""
  stargazers_count : Nat := 0
  description : Option String := none
  language : JsLang := .jsNull
  topics : List String := []
  forks_count : Nat := 0
  updated_at : Option String := none
deriving DecidableEq

/-- Lines 230-242 of `executeSearchStrategy`: drop the target itself
(`repo.full_name !== repoData.full_name`), then project each raw item onto
the candidate record shape (`repo.topics || []` is the `topics` default). -/
def processSearchResults (results : List RawRepo) (repoData : CRepo) : List CRepo :=
  (results.filter fun repo => repo.full_name ≠ repoData.full_name).map fun repo =>
    { name := repo.name
      full_name := repo.full_name
      url := repo.html_url
      stars := repo.stargazers_count
      description := repo.description
      language := repo.language
      topics := repo.topics
      forks := repo.forks_count
      updated := repo.updated_at }

/-- `buildLanguageTopicsQuery` (lines 252-262). -/
def buildLanguageTopicsQuery (repoData : CRepo) : String :=
  let language := jsLangToStr repoData.language
  let topics := repoData.topics.take 3
  let query := ""
  let query := if language ≠ "" then query ++ "language:" ++ language ++ " " else query
  let query := topics.foldl (fun q topic => q ++ "topic:" ++ topic ++ " ") query
  (query ++ "stars:>10").trim

/-- `buildDependencyQuery` (lines 264-274): an empty dependency list yields
the empty query string. -/
def buildDependencyQuery (repoData : CRepo) : String :=
  let deps := repoData.dependencies.take 5
  if deps.length == 0 then ""
  else
    let language := jsLangToStr repoData.language
    let query := String.intercalate " OR " deps ++ " "
    let query := if language ≠ "" then query ++ "language:" ++ language ++ " " else query
    query ++ "stars:>5"

/-- `buildSemanticQuery` (lines 276-283): `description.toLowerCase().split(' ')`
splits at every single space character. -/
def buildSemanticQuery (repoData : CRepo) : String :=
  let description := match repoData.description with | some d => d | none => ""
  let words := ((splitChars (fun c => c == ' ') (jsToLower description).data []).filter
      fun word => word.length > 3 && !(["the", "and", "for", "with"].contains word)).take 3
  String.intercalate " " words ++ " stars:>5"

/-- `buildActivityQuery` (lines 285-291). -/
def buildActivityQuery (repoData : CRepo) : String :=
  let language := jsLangToStr repoData.language
  let query := "stars:>5000 size:>5000 "
  if language ≠ "" then query ++ "language:" ++ language else query

/-- `buildArchitectureQuery` (lines 293-301). -/
def buildArchitectureQuery (repoData : CRepo) : String :=
  let language := jsLangToStr repoData.language
  let query := String.intercalate " OR " ["mvc", "mvvm", "component"] ++ " "
  let query := if language ≠ "" then query ++ "language:" ++ language ++ " " else query
  query ++ "stars:>10"

/-- JS `String.prototype.includes` for a non-empty needle. -/
def jsIncludes (s sub : String) : Bool :=
  (s.splitOn sub).length ≥ 2

/-- `buildDomainQuery` (lines 303-311). -/
def buildDomainQuery (repoData : CRepo) : String :=
  let description := jsToLower (match repoData.description with | some d => d | none => "")
  let domains := ["web", "mobile", "api", "library", "framework", "tool"]
  let matchedDomains := domains.filter fun domain => jsIncludes description domain
  (if matchedDomains.length > 0 then String.intercalate " OR " matchedDomains
   else "library") ++ " stars:>5"

/-- The `stacks` object of `buildTechStackQuery`; `stacks[language] || []`. -/
def stacksFor (language : String) : List String :=
  if language == "JavaScript" then ["react", "vue", "angular", "node"]
  else if language == "Python" then ["django", "flask", "fastapi", "pandas"]
  else if language == "Java" then ["spring", "maven", "gradle"]
  else if language == "TypeScript" then ["angular", "nest", "next"]
  else []

/-- `buildTechStackQuery` (lines 313-328). -/
def buildTechStackQuery (repoData : CRepo) : String :=
  let language := jsLangToStr repoData.language
  let techStack := stacksFor language
  let query := String.intercalate " OR " (techStack.take 3) ++ " "
  let query := if language ≠ "" then query ++ "language:" ++ language ++ " " else query
  query ++ "stars:>10"

/-- `buildCommunityQuery` (lines 330-336). -/
def buildCommunityQuery (repoData : CRepo) : String :=
  let language := jsLangToStr repoData.language
  let query := "stars:>5000 created:<2020-01-01 "
  if language ≠ "" then query ++ "language:" ++ language else query

/-- `buildRecentQuery` (lines 338-343). -/
def buildRecentQuery (repoData : CRepo) : String :=
  let topics := repoData.topics.take 2
  String.intercalate " " topics ++ " created:>2023-01-01 stars:>10 pushed:>2024-01-01"

/-- `buildNameQuery` (lines 345-353):
`repoData.owner?.login || repoData.full_name?.split('/')[0] || ''`. -/
def buildNameQuery (repoData : CRepo) : String :=
  let ownerLogin :=
    match repoData.owner with
    | some s => if s ≠ "" then s else (repoData.full_name.splitOn "/").headD ""
    | none => (repoData.full_name.splitOn "/").headD ""
  let language := jsLangToStr repoData.language
  let query := ownerLogin ++ " "
  let query := if language ≠ "" then query ++ "language:" ++ language ++ " " else query
  query ++ "stars:>5"

/-- `buildLicenseQuery` (lines 355-360). -/
def buildLicenseQuery (repoData : CRepo) : String :=
  jsLangToStr repoData.language ++ " license:mit stars:>10"

/-- `buildScaleQuery` (lines 362-369). -/
def buildScaleQuery (repoData : CRepo) : String :=
  let language := jsLangToStr repoData.language
  let query := "large-project "
  let query := if language ≠ "" then query ++ "language:" ++ language ++ " " else query
  query ++ "stars:>5"

/-- The `switch (strategyName)` of `executeSearchStrategy` (lines 187-226):
a known strategy name selects its builder, the `default` arm returns early
with no results and no search call. -/
def buildQueryFor (strategyName : String) (repoData : CRepo) : Option String :=
  if strategyName == "Language+Topics" then some (buildLanguageTopicsQuery repoData)
  else if strategyName == "Dependencies" then some (buildDependencyQuery repoData)
  else if strategyName == "Semantic" then some (buildSemanticQuery repoData)
  else if strategyName == "Activity" then some (buildActivityQuery repoData)
  else if strategyName == "Architecture" then some (buildArchitectureQuery repoData)
  else if strategyName == "Domain" then some (buildDomainQuery repoData)
  else if strategyName == "TechStack" then some (buildTechStackQuery repoData)
  else if strategyName == "Community" then some (buildCommunityQuery repoData)
  else if strategyName == "Recent" then some (buildRecentQuery repoData)
  else if strategyName == "Name" then some (buildNameQuery repoData)
  else if strategyName == "License" then some (buildLicenseQuery repoData)
  else if strategyName == "Scale" then some (buildScaleQuery repoData)
  else none

/-- The observable outcome of one `executeSearchStrategy` call: the queries
passed to `searchRepositories` (the issued HTTP search requests) and the
processed result list. -/
structure ExecOutcome where
  issuedQueries : List String
  results : List CRepo
deriving DecidableEq

/-- `executeSearchStrategy` (lines 179-250): check the per-strategy cache,
build the query for the strategy, and — for every known strategy,
with no emptiness test on the query — call `searchRepositories(query, limit)`
and process its results.  The GitHub search collaborator is the `search`
function parameter. -/
def executeSearchStrategy (search : String → List RawRepo)
    (searchCache : List (String × List CRepo)) (strategyName : String)
    (repoData : CRepo) : ExecOutcome :=
  let cacheKey := strategyName ++ "_" ++ repoData.full_name
  match alookup cacheKey searchCache with
  | some cached => { issuedQueries := [], results := cached }
  | none =>
    match buildQueryFor strategyName repoData with
    | none => { issuedQueries := [], results := [] }
    | some query =>
      { issuedQueries := [query]
        results := processSearchResults (search query) repoData }

/-- One row of the pgvector query of `findSimilarByEmbedding` (part_000,
lines 387-396): repository columns plus
`1 - (embedding <=> target) as similarity_score`. -/
structure SemRow where
  name : String := ""
  full_name : String
  description : Option String := none
  language : JsLang := .jsNull
  topics : List String := []
  stars : Nat := 0
  forks : Nat := 0
  updated_at : Option String := none
  similarity_score : ℚ := 0
deriving DecidableEq

/-- A candidate produced by the semantic vector search (part_000,
lines 400-416). -/
structure SemCandidate where
  name : String
  full_name : String
  url : String
  stars : Nat
  description : Option String
  language : JsLang
  topics : List String
  forks : Nat
  updated : Option String
  strategy : String
  score : ℚ
  semantic_similarity : ℚ
  relevanceScore : ℚ
  finalScore : ℚ
  ai_enhanced : Bool
deriving DecidableEq

/-- `DatabaseCachedGitHubClient.findSimilarByEmbedding` (part_000,
lines 380-422), the row-mapping half: the SQL query itself is the database
collaborator and hands over `rows`.  This path only runs when a stored
embedding exists for the target (line 359). -/
def findSimilarByEmbedding (rows : List SemRow) : List SemCandidate :=
  rows.map fun row =>
    { name := row.name
      full_name := row.full_name
      url := "https://github.com/" ++ row.full_name
      stars := row.stars
      description := row.description
      language := row.language
      topics := row.topics
      forks := row.forks
      updated := row.updated_at
      strategy := "Semantic Vector Search"
      score := 10
      semantic_similarity := row.similarity_score
      relevanceScore := row.similarity_score * 20
      finalScore := 10 + row.similarity_score * 20
      ai_enhanced := true }

/-- A candidate produced by `performTraditionalSearch` (part_000,
lines 447-463), as consumed by `combineAndRankResults`. -/
structure TradCand where
  name : String := ""
  full_name : String
  url : String := ""
  stars : Nat := 0
  description : Option String := none
  language : JsLang := .jsNull
  topics : List String := []
  forks : Nat := 0
  updated : Option String := none
  strategy : String := ""
  strategies : List String := []
  score : ℚ := 0
  relevanceScore : ℚ := 0
  finalScore : ℚ := 0
deriving DecidableEq

/-- An entry of the combined map of `combineAndRankResults` (part_000,
lines 540-570); fields a code path may leave absent are `Option`s, and a
semantic entry carries no `strategies` array (modelled as `[]`). -/
structure CombCand where
  full_name : String
  stars : Nat := 0
  strategies : List String := []
  strategy : String := ""
  score : ℚ := 0
  relevanceScore : ℚ := 0
  finalScore : ℚ := 0
  semantic_similarity : Option ℚ := none
  semantic_boost : Option ℚ := none
  traditional_score : Option ℚ := none
  ai_enhanced : Bool := false
deriving DecidableEq

/-- Lines 544-549: a semantic result is entered with `ai_enhanced: true` and
`semantic_boost: 10`. -/
def semToComb (s : SemCandidate) : CombCand :=
  { full_name := s.full_name
    stars := s.stars
    strategies := []
    strategy := s.strategy
    score := s.score
    relevanceScore := s.relevanceScore
    finalScore := s.finalScore
    semantic_similarity := some s.semantic_similarity
    semantic_boost := some 10
    traditional_score := none
    ai_enhanced := true }

/-- Lines 559-564: a traditional-only result is entered with
`ai_enhanced: false`. -/
def tradToComb (t : TradCand) : CombCand :=
  { full_name := t.full_name
    stars := t.stars
    strategies := t.strategies
    strategy := t.strategy
    score := t.score
    relevanceScore := t.relevanceScore
    finalScore := t.finalScore
    semantic_similarity := none
    semantic_boost := none
    traditional_score := none
    ai_enhanced := false }

/-- Lines 554-558: a repository found by both searches keeps its semantic
entry, concatenates the strategy lists, records `traditional_score`, and adds
half the traditional `finalScore`. -/
def combMerge (ex : CombCand) (t : TradCand) : CombCand :=
  { ex with
    strategies := ex.strategies ++ t.strategies
    traditional_score := some t.finalScore
    finalScore := ex.finalScore + t.finalScore * (1 / 2) }

/-- `allResults.set(key, value)` on the combined map: replace in place or
append. -/
def mapSetC (m : List (String × CombCand)) (k : String) (v : CombCand) :
    List (String × CombCand) :=
  if (alookup k m).isSome then m.map fun p => if p.1 = k then (p.1, v) else p
  else m ++ [(k, v)]

/-- The comparator `(a, b) => (b.finalScore || 0) - (a.finalScore || 0)`
(line 569). -/
def byCombFinalScore (a b : CombCand) : Prop :=
  b.finalScore ≤ a.finalScore

instance : DecidableRel byCombFinalScore :=
  fun a b => inferInstanceAs (Decidable (b.finalScore ≤ a.finalScore))

instance : IsTotal CombCand byCombFinalScore :=
  ⟨fun a b => le_total b.finalScore a.finalScore⟩

instance : IsTrans CombCand byCombFinalScore :=
  ⟨fun _ _ _ h1 h2 => le_trans h2 h1⟩

/-- `DatabaseCachedGitHubClient.combineAndRankResults` (part_000,
lines 540-570): seed the map with the semantic results, merge the
traditional results, then drop the target's own `full_name` and sort
descending by `finalScore`. -/
def combineAndRankResults (semanticResults : List SemCandidate)
    (traditionalResults : List TradCand) (originalRepo : CRepo) : List CombCand :=
  let m : List (String × CombCand) :=
    semanticResults.foldl (fun m s => mapSetC m s.full_name (semToComb s)) []
  let m :=
    traditionalResults.foldl
      (fun m t =>
        match alookup t.full_name m with
        | some ex => m.map fun p => if p.1 = t.full_name then (p.1, combMerge ex t) else p
        | none => m ++ [(t.full_name, tradToComb t)])
      m
  ((m.map Prod.snd).filter fun c =>
    c.full_name ≠ originalRepo.full_name).insertionSort byCombFinalScore

/-- The per-contributor weight of
`ContributorEnhancedGitHubClient.getContributorRepositories`
(`enhanced-with-contributors.js`, lines 124-128):
`let w = Math.log(contributions + 1) * 2; if (ownsRepo) w *= 3`.
`Math.log` is a transcendental float operation; the model takes the
logarithm map as the function argument `log`, applied to the integer
`contributions + 1` exactly as the source does. -/
def contributorWeight (log : Nat → ℚ) (contributions : Nat) (ownsRepo : Bool) : ℚ :=
  let w := log (contributions + 1) * 2
  if ownsRepo then w * 3 else w

/-- Line 129 summed over the shared contributors of one candidate:
`existingRepo.contributor_score += contributorWeight`, one
`(contributions, ownsRepo)` entry per shared contributor. -/
def contributorScore (log : Nat → ℚ) (shared : List (Nat × Bool)) : ℚ :=
  shared.foldl (fun acc e => acc + contributorWeight log e.1 e.2) 0

/-- Modelled from the spec: the claimed per-contributor bonus
`log(contributions_to_target + 1) × ownershipMultiplier` with
`ownershipMultiplier = 3` for an owner and `1` otherwise — stated for
comparison with the source's `contributorWeight`. -/
def specContributorWeight (log : Nat → ℚ) (contributions : Nat) (ownsRepo : Bool) : ℚ :=
  log (contributions + 1) * (if ownsRepo then 3 else 1)

/-- Modelled from the spec: whitespace tokenization of a description, as the
claim's "whitespace-tokenized words" reads — for comparison with the
source's `\W+` tokenization in `jsWords`. -/
def specWords : Option String → List String
  | none => []
  | some s =>
    (splitChars Char.isWhitespace (jsToLower s).data []).filter fun w => w ≠ ""

/-- Modelled from the spec: the claimed shared-description-word count over
whitespace tokens. -/
def specSharedWordCount (repo originalRepo : CRepo) : Nat :=
  ((specWords repo.description).dedup.filter fun w =>
    (specWords originalRepo.description).contains w && w.length > 3).length

/-- Modelled from the spec: the claimed relevance formula of C6, with
whitespace-tokenized shared description words — for comparison with the
source's `calculateRelevanceScore`. -/
def specRelevanceScore (repo originalRepo : CRepo) : ℚ :=
  (if jsLangEq repo.language originalRepo.language then 10 else 0)
    + 5 * (topicOverlapCount repo originalRepo : ℚ)
    + 5 * starRatioQ repo originalRepo
    + 2 * (specSharedWordCount repo originalRepo : ℚ)

/-- A concrete target repository for concrete runs of the engine. -/
def demoTarget : CRepo :=
  { full_name := "t/t", language := .str "Python" }

/-- A concrete candidate whose relevance against `demoTarget` is `0`
(different language, no topics, zero stars on both sides, no description). -/
def demoRepoA : CRepo :=
  { full_name := "a/b", language := .str "JavaScript" }

/-- Two strategies both reporting `demoRepoA`. -/
def demoPairC1 : List (String × List CRepo) :=
  [("Language+Topics", [demoRepoA]), ("Dependencies", [demoRepoA])]

/-- Two strategies both reporting `demoRepoA`, for the fusion-merge run. -/
def demoPairC2 : List (String × List CRepo) :=
  [("Language+Topics", [demoRepoA]), ("TechStack", [demoRepoA])]

/-- `demoPairC2` with the two strategy results arriving in the other order. -/
def demoPairC2rev : List (String × List CRepo) :=
  [("TechStack", [demoRepoA]), ("Language+Topics", [demoRepoA])]

/-- The fused entry for `demoRepoA` out of the `demoPairC2` run. -/
def demoFusedC2 : Fused :=
  (alookup "a/b" (fuseAll demoTarget demoPairC2)).getD (mkFused demoTarget "" demoRepoA)

/-- The fused entry for `demoRepoA` out of the `demoPairC2rev` run. -/
def demoFusedC2rev : Fused :=
  (alookup "a/b" (fuseAll demoTarget demoPairC2rev)).getD (mkFused demoTarget "" demoRepoA)

/-- The fused entry for `demoRepoA` out of the `demoPairC1` run. -/
def demoFusedC1 : Fused :=
  (alookup "a/b" (fuseAll demoTarget demoPairC1)).getD (mkFused demoTarget "" demoRepoA)

/-- A candidate with `1` star that matches `demoTarget`'s language. -/
def demoStar1 : CRepo :=
  { full_name := "s/one", language := .str "Python", stars := 1 }

/-- A candidate with `100` stars that matches `demoTarget`'s language. -/
def demoStar2 : CRepo :=
  { full_name := "s/two", language := .str "Python", stars := 100 }

/-- One strategy reporting the 1-star candidate before the 100-star one;
against `demoTarget` (zero stars) both get relevance `10` and the same
`finalScore` `12`. -/
def demoListC3 : List (String × List CRepo) :=
  [("Domain", [demoStar1, demoStar2])]

/-- A target with no detected language (`null`). -/
def demoNullLang : CRepo :=
  { full_name := "n/n", language := .jsNull }

/-- A target with an `undefined` language field (the shape produced when the
target fetch settles rejected and the repository spread is `{}`). -/
def demoUndefLang : CRepo :=
  { full_name := "u/u", language := .jsUndefined }

/-- A candidate description: one hyphenated token and one plain word. -/
def demoDescCand : CRepo :=
  { full_name := "a/b", language := .str "X", description := some "ab-cd wxyz" }

/-- A target description sharing only the hyphenated token. -/
def demoDescTarget : CRepo :=
  { full_name := "c/d", language := .str "X", description := some "ab-cd qrst" }

/-- A concrete stand-in for the logarithm map: any map sending `2` to a
non-zero rational (as the real `Math.log(2)` is non-zero) exhibits the
same discrepancy. -/
def demoLog : Nat → ℚ :=
  fun n => if n == 2 then 7 / 10 else 0

/-- A search collaborator that finds nothing. -/
def demoSearch : String → List RawRepo :=
  fun _ => []

/-- A concrete pgvector row with cosine similarity `9/10`. -/
def demoSemRow : SemRow :=
  { full_name := "v/v", similarity_score := 9 / 10 }

/-- The candidate the semantic vector search produces from `demoSemRow`. -/
def demoSemCandidate : SemCandidate :=
  (findSimilarByEmbedding [demoSemRow]).headD
    { name := "", full_name := "", url := "", stars := 0, description := none
      language := .jsNull, topics := [], forks := 0, updated := none
      strategy := "", score := 0, semantic_similarity := 0, relevanceScore := 0
      finalScore := 0, ai_enhanced := false }

/-- A second repository with a `null` language field. -/
def demoNullLang2 : CRepo :=
  { full_name := "m/m", language := .jsNull }

/-! ## Lookup lemmas for the fusion accumulator -/

theorem alookup_mapUpdate_self (m : List (String × Fused)) (k : String)
    (f : Fused → Fused) : alookup k (mapUpdate m k f) = (alookup k m).map f := by
  induction m with
  | nil => rfl
  | cons p tl ih =>
    obtain ⟨q, v⟩ := p
    by_cases h : q = k
    · subst h
      simp [mapUpdate, alookup]
    · simp only [mapUpdate, List.map_cons] at ih ⊢
      rw [if_neg h, alookup, alookup, if_neg h, if_neg h]
      exact ih

theorem alookup_mapUpdate_ne (m : List (String × Fused)) (k f' : String)
    (g : Fused → Fused) (h : f' ≠ k) :
    alookup f' (mapUpdate m k g) = alookup f' m := by
  induction m with
  | nil => rfl
  | cons p tl ih =>
    obtain ⟨q, v⟩ := p
    simp only [mapUpdate, List.map_cons] at ih ⊢
    by_cases hq : q = k
    · subst hq
      rw [if_pos rfl, alookup, alookup, if_neg (fun hh => h hh.symm),
        if_neg (fun hh => h hh.symm)]
      exact ih
    · rw [if_neg hq]
      by_cases hf : q = f'
      · subst hf
        rw [alookup, alookup, if_pos rfl, if_pos rfl]
      · rw [alookup, alookup, if_neg hf, if_neg hf]
        exact ih

theorem alookup_append_single_self (m : List (String × Fused)) (k : String)
    (v : Fused) (h : alookup k m = none) :
    alookup k (m ++ [(k, v)]) = some v := by
  induction m with
  | nil => simp [alookup]
  | cons p tl ih =>
    obtain ⟨q, w⟩ := p
    rw [alookup] at h
    by_cases hq : q = k
    · rw [if_pos hq] at h
      exact absurd h (by simp)
    · rw [if_neg hq] at h
      rw [List.cons_append, alookup, if_neg hq]
      exact ih h

theorem alookup_append_single_ne (m : List (String × Fused)) (k f' : String)
    (v : Fused) (h : f' ≠ k) :
    alookup f' (m ++ [(k, v)]) = alookup f' m := by
  induction m with
  | nil => simp [alookup, if_neg (Ne.symm h)]
  | cons p tl ih =>
    obtain ⟨q, w⟩ := p
    by_cases hq : q = f'
    · subst hq
      rw [List.cons_append, alookup, alookup, if_pos rfl, if_pos rfl]
    · rw [List.cons_append, alookup, alookup, if_neg hq, if_neg hq]
      exact ih

theorem alookup_fuseOne_self (t : CRepo) (s : String) (m : List (String × Fused))
    (r : CRepo) :
    alookup r.full_name (fuseOne t s m r) =
      some (match alookup r.full_name m with
            | some fc => addStrategy s fc
            | none => mkFused t s r) := by
  unfold fuseOne
  cases h : alookup r.full_name m with
  | some fc =>
    rw [alookup_mapUpdate_self, h]
    rfl
  | none => rw [alookup_append_single_self m r.full_name _ h]

theorem alookup_fuseOne_ne (t : CRepo) (s : String) (m : List (String × Fused))
    (r : CRepo) (f : String) (h : f ≠ r.full_name) :
    alookup f (fuseOne t s m r) = alookup f m := by
  unfold fuseOne
  cases hm : alookup r.full_name m with
  | some fc => exact alookup_mapUpdate_ne m r.full_name f _ h
  | none => exact alookup_append_single_ne m r.full_name f _ h

theorem alookup_foldl_fuseOne_not_mem (t : CRepo) (s : String) (rs : List CRepo)
    (m : List (String × Fused)) (f : String) (h : ∀ r ∈ rs, r.full_name ≠ f) :
    alookup f (rs.foldl (fuseOne t s) m) = alookup f m := by
  induction rs generalizing m with
  | nil => rfl
  | cons r tl ih =>
    rw [List.foldl_cons, ih _ fun x hx => h x (List.mem_cons_of_mem _ hx)]
    exact alookup_fuseOne_ne t s m r f (Ne.symm (h r (List.mem_cons_self _ _)))

theorem alookup_fuseStrategy (t : CRepo) (s : String) (rs : List CRepo)
    (m : List (String × Fused)) (f : String)
    (hnd : (rs.map fun r => r.full_name).Nodup) :
    alookup f (fuseStrategy t m (s, rs)) =
      match rs.find? (fun r => r.full_name == f), alookup f m with
      | none, o => o
      | some _, some fc => some (addStrategy s fc)
      | some r, none => some (mkFused t s r) := by
  induction rs generalizing m with
  | nil =>
    show alookup f m = _
    cases alookup f m <;> rfl
  | cons r tl ih =>
    simp only [List.map_cons, List.nodup_cons] at hnd
    obtain ⟨hr, htl⟩ := hnd
    show alookup f (tl.foldl (fuseOne t s) (fuseOne t s m r)) = _
    by_cases hf : r.full_name = f
    · subst hf
      have htl' : ∀ x ∈ tl, x.full_name ≠ r.full_name := by
        intro x hx hxe
        exact hr (hxe ▸ List.mem_map_of_mem (fun y => y.full_name) hx)
      rw [alookup_foldl_fuseOne_not_mem t s tl _ _ htl', alookup_fuseOne_self,
        List.find?_cons_of_pos _ (by simp)]
      cases alookup r.full_name m
      · rfl
      · rfl
    · have h1 : alookup f (fuseOne t s m r) = alookup f m :=
        alookup_fuseOne_ne t s m r f (Ne.symm hf)
      have ihm := ih (fuseOne t s m r) htl
      rw [show fuseStrategy t (fuseOne t s m r) (s, tl)
            = tl.foldl (fuseOne t s) (fuseOne t s m r) from rfl] at ihm
      rw [ihm, h1, List.find?_cons_of_neg _ (by simpa using hf)]

theorem surfacedBy_cons (f : String) (p : String × List CRepo)
    (L : List (String × List CRepo)) :
    surfacedBy f (p :: L) =
      if surfaces f p then p :: surfacedBy f L else surfacedBy f L := by
  simp [surfacedBy, List.filter_cons]

theorem surfaces_iff_find (f : String) (s : String) (rs : List CRepo) :
    surfaces f (s, rs) = true ↔ (rs.find? fun r => r.full_name == f).isSome := by
  constructor
  · intro h
    simp only [surfaces, List.any_eq_true] at h
    obtain ⟨r, hm, hp⟩ := h
    cases hfind : rs.find? fun r => r.full_name == f with
    | some r2 => rfl
    | none =>
      rw [List.find?_eq_none] at hfind
      exact absurd hp (hfind r hm)
  · intro h
    cases hfind : rs.find? fun r => r.full_name == f with
    | none => rw [hfind] at h; exact absurd h (by simp)
    | some r =>
      have hp := List.find?_some hfind
      simp only [surfaces, List.any_eq_true]
      exact ⟨r, List.mem_of_find?_eq_some hfind, by simpa using hp⟩

theorem alookup_fuseAll_fold (t : CRepo) (L : List (String × List CRepo)) (f : String)
    (m : List (String × Fused))
    (hL : ∀ p ∈ L, (p.2.map fun r => r.full_name).Nodup) :
    alookup f (L.foldl (fuseStrategy t) m) = fusedView t f L (alookup f m) := by
  revert hL
  induction L generalizing m with
  | nil =>
    intro hL
    show alookup f m = _
    cases alookup f m with
    | none => rfl
    | some fc =>
      simp [fusedView, accumulatedWeight, matchedStrategies, surfacedBy]
  | cons p L' ih =>
    intro hL
    obtain ⟨s, rs⟩ := p
    have hhead := hL (s, rs) (List.mem_cons_self _ _)
    have htail : ∀ q ∈ L', (q.2.map fun r => r.full_name).Nodup :=
      fun q hq => hL q (List.mem_cons_of_mem _ hq)
    rw [List.foldl_cons, ih (fuseStrategy t m (s, rs)) htail,
      alookup_fuseStrategy t s rs m f hhead]
    cases hfind : rs.find? (fun r => r.full_name == f) with
    | none =>
      have hsurf : surfaces f (s, rs) = false := by
        by_cases hs : surfaces f (s, rs)
        · exfalso
          have := (surfaces_iff_find f s rs).mp hs
          rw [hfind] at this
          exact absurd this (by simp)
        · simpa using hs
      cases ho : alookup f m with
      | none =>
        simp [fusedView, firstHit, hfind, accumulatedWeight, matchedStrategies,
          surfacedBy_cons, hsurf]
      | some fc =>
        simp [fusedView, accumulatedWeight, matchedStrategies, surfacedBy_cons, hsurf]
    | some r =>
      have hsurf : surfaces f (s, rs) = true := by
        rw [surfaces_iff_find, hfind]
        rfl
      cases ho : alookup f m with
      | none =>
        simp [fusedView, firstHit, hfind, mkFused, accumulatedWeight, matchedStrategies,
          surfacedBy_cons, hsurf]
      | some fc =>
        simp [fusedView, addStrategy, accumulatedWeight, matchedStrategies,
          surfacedBy_cons, hsurf, add_assoc]

theorem alookup_fuseAll (t : CRepo) (L : List (String × List CRepo)) (f : String)
    (hL : ∀ p ∈ L, (p.2.map fun r => r.full_name).Nodup) :
    alookup f (fuseAll t L) =
      (firstHit f L).map fun sr =>
        { repo := sr.2
          strategy := sr.1
          strategies := matchedStrategies f L
          score := accumulatedWeight f L
          relevanceScore := calculateRelevanceScore sr.2 t
          finalScore := getStrategyScore sr.1 + calculateRelevanceScore sr.2 t } := by
  rw [show fuseAll t L = L.foldl (fuseStrategy t) [] from rfl,
    alookup_fuseAll_fold t L f [] hL]
  rfl

theorem matchedStrategies_head (f : String) (L : List (String × List CRepo))
    (sr : String × CRepo) (h : firstHit f L = some sr) :
    (matchedStrategies f L).head? = some sr.1 := by
  induction L with
  | nil => exact absurd h (by simp [firstHit])
  | cons p L' ih =>
    obtain ⟨s, rs⟩ := p
    rw [firstHit] at h
    cases hfind : rs.find? (fun r => r.full_name == f) with
    | some r =>
      rw [hfind] at h
      have hsurf : surfaces f (s, rs) = true := by
        rw [surfaces_iff_find, hfind]
        rfl
      have hsr : (s, r) = sr := by simpa using h
      simp [matchedStrategies, surfacedBy_cons, hsurf, ← hsr]
    | none =>
      rw [hfind] at h
      have hsurf : surfaces f (s, rs) = false := by
        by_cases hs : surfaces f (s, rs)
        · exfalso
          have := (surfaces_iff_find f s rs).mp hs
          rw [hfind] at this
          exact absurd this (by simp)
        · simpa using hs
      rw [show matchedStrategies f ((s, rs) :: L')
            = matchedStrategies f L' from by
          simp [matchedStrategies, surfacedBy_cons, hsurf]]
      exact ih h

theorem accumulatedWeight_perm (f : String) {L L' : List (String × List CRepo)}
    (h : L.Perm L') : accumulatedWeight f L = accumulatedWeight f L' :=
  List.Perm.sum_eq (List.Perm.map _ (List.Perm.filter _ h))

theorem matchedStrategies_perm (f : String) {L L' : List (String × List CRepo)}
    (h : L.Perm L') : (matchedStrategies f L).Perm (matchedStrategies f L') :=
  List.Perm.map _ (List.Perm.filter _ h)

theorem sortedResults_sorted (t : CRepo) (L : List (String × List CRepo))
    (limit : Nat) : List.Sorted byFinalScore (sortedResults t L limit) :=
  List.Pairwise.sublist (List.take_sublist _ _)
    (List.sorted_insertionSort byFinalScore ((fuseAll t L).map Prod.snd))

theorem sortedResults_length_le (t : CRepo) (L : List (String × List CRepo))
    (limit : Nat) : (sortedResults t L limit).length ≤ limit := by
  rw [sortedResults, List.length_take]
  exact min_le_left _ _

theorem sortedResults_mem (t : CRepo) (L : List (String × List CRepo))
    (limit : Nat) (x : Fused) (hx : x ∈ sortedResults t L limit) :
    x ∈ (fuseAll t L).map Prod.snd := by
  have h1 : x ∈ ((fuseAll t L).map Prod.snd).insertionSort byFinalScore :=
    (List.take_sublist _ _).mem hx
  exact (List.perm_insertionSort byFinalScore _).mem_iff.mp h1

theorem demoRelA : calculateRelevanceScore demoRepoA demoTarget = 0 := by
  simp [calculateRelevanceScore, demoRepoA, demoTarget, jsLangEq, topicOverlapCount,
    starRatioQ, descTruthy]

theorem demoRelStar1 : calculateRelevanceScore demoStar1 demoTarget = 10 := by
  simp [calculateRelevanceScore, demoStar1, demoTarget, jsLangEq, topicOverlapCount,
    starRatioQ, descTruthy]

theorem demoRelStar2 : calculateRelevanceScore demoStar2 demoTarget = 10 := by
  simp [calculateRelevanceScore, demoStar2, demoTarget, jsLangEq, topicOverlapCount,
    starRatioQ, descTruthy]

theorem demoFusedC1_eq :
    demoFusedC1 =
      { repo := demoRepoA
        strategy := "Language+Topics"
        strategies := ["Language+Topics", "Dependencies"]
        score := getStrategyScore "Language+Topics" + getStrategyScore "Dependencies"
        relevanceScore := calculateRelevanceScore demoRepoA demoTarget
        finalScore := getStrategyScore "Language+Topics"
          + calculateRelevanceScore demoRepoA demoTarget } := by
  simp [demoFusedC1, demoPairC1, fuseAll, fuseStrategy, fuseOne, alookup, mapUpdate,
    mkFused, addStrategy, demoRepoA]

/-- **C1 (counterexample).** In the concrete fusion run `demoPairC1` the
candidate `a/b` is reported by `Language+Topics` (base weight 5) and then by
`Dependencies` (base weight 4): its accumulated `score` is `9` and its
`relevanceScore` is `0`, yet its `finalScore` is `5` — it is frozen at the
first strategy's value and does not equal
`accumulatedWeight + relevanceScore + semanticBoost + contributorBonus = 9`. -/
theorem c1_counterexample :
    demoFusedC1.score = 9 ∧ demoFusedC1.relevanceScore = 0 ∧
      demoFusedC1.finalScore = 5 ∧
      demoFusedC1.finalScore ≠ demoFusedC1.score + demoFusedC1.relevanceScore + 0 + 0 := by
  rw [demoFusedC1_eq]
  rw [show getStrategyScore "Language+Topics" = 5 from rfl,
    show getStrategyScore "Dependencies" = 4 from rfl, demoRelA]
  norm_num

/-- **C1 (amended).** For every candidate in the fused map, `finalScore`
equals the base weight of the single strategy recorded in its `strategy`
field — the first strategy that surfaced it — plus its `relevanceScore`, and
it stays frozen at that value no matter how many further strategies report
the same `fullName`; later strategies grow only the separate `score` field.
-/
theorem c1_amended_finalScore_frozen (t : CRepo) (L : List (String × List CRepo))
    (f : String) (fc : Fused)
    (hL : ∀ p ∈ L, (p.2.map fun r => r.full_name).Nodup)
    (h : alookup f (fuseAll t L) = some fc) :
    fc.finalScore = getStrategyScore fc.strategy + fc.relevanceScore ∧
      fc.strategies.head? = some fc.strategy := by
  rw [alookup_fuseAll t L f hL] at h
  obtain ⟨sr, hsr, hg⟩ := Option.map_eq_some'.mp h
  rw [← hg]
  exact ⟨rfl, matchedStrategies_head f L sr hsr⟩

/-- Witness for the amended C1 at the concrete run `demoPairC1`. -/
theorem c1_amended_witness :
    demoFusedC1.finalScore
        = getStrategyScore demoFusedC1.strategy + demoFusedC1.relevanceScore ∧
      demoFusedC1.strategies.head? = some demoFusedC1.strategy :=
  c1_amended_finalScore_frozen demoTarget demoPairC1 "a/b" demoFusedC1
    (by decide) (by rfl)

/-- **C2.** A candidate surfaced by `k` distinct strategies accumulates in
`score` exactly the sum of those strategies' base weights and collects in
`strategies` exactly those `k` strategy names; and for any permutation of
the per-strategy result lists, the accumulated weight is unchanged and the
collected name set is the same (the merge is order-independent — never
decreased, never capped). -/
theorem c2_fusion_weights (t : CRepo) (L L' : List (String × List CRepo))
    (f : String) (fc fc' : Fused)
    (hL : ∀ p ∈ L, (p.2.map fun r => r.full_name).Nodup)
    (hperm : L.Perm L')
    (h : alookup f (fuseAll t L) = some fc)
    (h' : alookup f (fuseAll t L') = some fc') :
    fc.score = ((surfacedBy f L).map fun p => getStrategyScore p.1).sum ∧
      fc.strategies = (surfacedBy f L).map Prod.fst ∧
      fc'.score = fc.score ∧
      fc'.strategies.Perm fc.strategies := by
  have hL' : ∀ p ∈ L', (p.2.map fun r => r.full_name).Nodup :=
    fun p hp => hL p (hperm.mem_iff.mpr hp)
  rw [alookup_fuseAll t L f hL] at h
  rw [alookup_fuseAll t L' f hL'] at h'
  obtain ⟨sr, hsr, hg⟩ := Option.map_eq_some'.mp h
  obtain ⟨sr', hsr', hg'⟩ := Option.map_eq_some'.mp h'
  rw [← hg, ← hg']
  refine ⟨rfl, rfl, (accumulatedWeight_perm f hperm).symm, ?_⟩
  exact matchedStrategies_perm f hperm.symm

/-- Witness for C2 at the two arrival orders `demoPairC2`/`demoPairC2rev`. -/
theorem c2_witness :
    demoFusedC2.score
        = ((surfacedBy "a/b" demoPairC2).map fun p => getStrategyScore p.1).sum ∧
      demoFusedC2.strategies = (surfacedBy "a/b" demoPairC2).map Prod.fst ∧
      demoFusedC2rev.score = demoFusedC2.score ∧
      demoFusedC2rev.strategies.Perm demoFusedC2.strategies :=
  c2_fusion_weights demoTarget demoPairC2 demoPairC2rev "a/b"
    demoFusedC2 demoFusedC2rev (by decide) (by decide) (by rfl) (by rfl)

theorem demoSortC3 :
    sortedResults demoTarget demoListC3 50 =
      [mkFused demoTarget "Domain" demoStar1, mkFused demoTarget "Domain" demoStar2] := by
  have hr : byFinalScore (mkFused demoTarget "Domain" demoStar1)
      (mkFused demoTarget "Domain" demoStar2) := by
    show (mkFused demoTarget "Domain" demoStar2).finalScore
        ≤ (mkFused demoTarget "Domain" demoStar1).finalScore
    rw [show (mkFused demoTarget "Domain" demoStar2).finalScore
          = getStrategyScore "Domain" + calculateRelevanceScore demoStar2 demoTarget from rfl,
      show (mkFused demoTarget "Domain" demoStar1).finalScore
          = getStrategyScore "Domain" + calculateRelevanceScore demoStar1 demoTarget from rfl,
      demoRelStar1, demoRelStar2]
  rw [show sortedResults demoTarget demoListC3 50
        = (List.insertionSort byFinalScore
            [mkFused demoTarget "Domain" demoStar1,
             mkFused demoTarget "Domain" demoStar2]).take 50 from rfl]
  rw [show List.insertionSort byFinalScore
        [mkFused demoTarget "Domain" demoStar1, mkFused demoTarget "Domain" demoStar2]
        = List.orderedInsert byFinalScore (mkFused demoTarget "Domain" demoStar1)
            [mkFused demoTarget "Domain" demoStar2] from by
      simp [List.insertionSort]]
  rw [List.orderedInsert, if_pos hr]
  rfl

/-- **C3 (counterexample).** In the run `demoListC3` the two candidates have
the same `finalScore` `12` but `1` and `100` stars: the returned order is
`[(12, 1), (12, 100)]`, i.e. the tie is left in merge-insertion order and is
not broken by descending raw star count (which would require the 100-star
candidate first). -/
theorem c3_counterexample :
    ((sortedResults demoTarget demoListC3 50).map fun fc =>
        (fc.finalScore, fc.repo.stars)) = [(12, 1), (12, 100)] ∧
      ¬ ((100 : Nat) ≤ 1) := by
  refine ⟨?_, by norm_num⟩
  rw [demoSortC3]
  simp only [List.map_cons, List.map_nil]
  rw [show (mkFused demoTarget "Domain" demoStar1).finalScore
        = getStrategyScore "Domain" + calculateRelevanceScore demoStar1 demoTarget from rfl,
    show (mkFused demoTarget "Domain" demoStar2).finalScore
        = getStrategyScore "Domain" + calculateRelevanceScore demoStar2 demoTarget from rfl,
    demoRelStar1, demoRelStar2, show getStrategyScore "Domain" = 2 from rfl]
  norm_num [mkFused, demoStar1, demoStar2]

/-- **C3 (amended).** The list returned by the fusion engine is sorted
descending by `finalScore` (candidates of equal `finalScore` stay in
map-insertion order — the sort is stable and uses no star tie-break), it is
truncated to at most `limit` entries, and every entry is one of the fused
candidates. -/
theorem c3_amended_sorted_truncated (t : CRepo) (L : List (String × List CRepo))
    (limit : Nat) :
    List.Sorted byFinalScore (sortedResults t L limit) ∧
      (sortedResults t L limit).length ≤ limit ∧
      ∀ x ∈ sortedResults t L limit, x ∈ (fuseAll t L).map Prod.snd :=
  ⟨sortedResults_sorted t L limit, sortedResults_length_le t L limit,
    sortedResults_mem t L limit⟩

/-- **C4.** Self-exclusion: the processed result list of every strategy
execution filters out the target's own `fullName`
(`repo.full_name !== repoData.full_name`, line 231), and the combined output
of `combineAndRankResults` excludes it again at the final stage (part_000
line 568), covering the semantic-vector path that can reintroduce it. -/
theorem c4_self_exclusion (results : List RawRepo) (repoData : CRepo)
    (semanticResults : List SemCandidate) (traditionalResults : List TradCand)
    (originalRepo : CRepo) :
    (∀ r ∈ processSearchResults results repoData,
        r.full_name ≠ repoData.full_name) ∧
      ∀ c ∈ combineAndRankResults semanticResults traditionalResults originalRepo,
        c.full_name ≠ originalRepo.full_name := by
  constructor
  · intro r hr
    simp only [processSearchResults, List.mem_map, List.mem_filter] at hr
    obtain ⟨raw, ⟨hmem, hne⟩, hmap⟩ := hr
    rw [← hmap]
    simpa using hne
  · intro c hc
    simp only [combineAndRankResults] at hc
    have h2 := (List.perm_insertionSort byCombFinalScore _).mem_iff.mp hc
    have h3 := List.of_mem_filter h2
    simpa using h3

theorem fuseSettled_filterMap (t : CRepo) (L : List (String × Option (List CRepo)))
    (m : List (String × Fused)) :
    L.foldl
        (fun m p =>
          match p.2 with
          | some rs => fuseStrategy t m (p.1, rs)
          | none => m) m
      = (L.filterMap fun p => p.2.map fun rs => (p.1, rs)).foldl (fuseStrategy t) m := by
  induction L generalizing m with
  | nil => rfl
  | cons p L' ih =>
    obtain ⟨s, o⟩ := p
    cases o with
    | none => simpa [List.filterMap_cons] using ih m
    | some rs => simpa [List.filterMap_cons] using ih (fuseStrategy t m (s, rs))

/-- **C5.** A rejected strategy in the settle-all join contributes nothing:
the fused map over a batch containing a rejected strategy equals the fused
map over the batch without it, and the settled fusion equals the plain
fusion of exactly the fulfilled strategies — so the surviving strategies'
candidates keep their scores and their merge order, and the batch always
completes (the fold is total). -/
theorem c5_failed_strategy_is_soft (t : CRepo)
    (A B : List (String × Option (List CRepo))) (s : String) :
    fuseSettled t (A ++ (s, none) :: B) = fuseSettled t (A ++ B) ∧
      fuseSettled t (A ++ B)
        = fuseAll t ((A ++ B).filterMap fun p => p.2.map fun rs => (p.1, rs)) := by
  constructor
  · simp [fuseSettled, List.foldl_append]
  · exact fuseSettled_filterMap t (A ++ B) []

theorem jsWords_nil_of_not_truthy (d : Option String) (h : descTruthy d = false) :
    jsWords d = [] := by
  cases d with
  | none => rfl
  | some s =>
    have hs : s = "" := by simpa [descTruthy] using h
    subst hs
    rfl

theorem commonWordCount_zero_left (r o : CRepo) (h : descTruthy r.description = false) :
    commonWordCount r o = 0 := by
  simp [commonWordCount, jsWords_nil_of_not_truthy _ h]

theorem commonWordCount_zero_right (r o : CRepo) (h : descTruthy o.description = false) :
    commonWordCount r o = 0 := by
  simp [commonWordCount, jsWords_nil_of_not_truthy _ h]

theorem relevance_decomposition (repo originalRepo : CRepo) :
    calculateRelevanceScore repo originalRepo =
      (if jsLangEq repo.language originalRepo.language then 10 else 0)
        + 5 * (topicOverlapCount repo originalRepo : ℚ)
        + 5 * starRatioQ repo originalRepo
        + 2 * (commonWordCount repo originalRepo : ℚ) := by
  simp only [calculateRelevanceScore]
  by_cases hd : (descTruthy repo.description && descTruthy originalRepo.description) = true
  · rw [if_pos hd]
    by_cases hl : jsLangEq repo.language originalRepo.language = true
    · rw [if_pos hl, if_pos hl]
      ring
    · rw [if_neg hl, if_neg hl]
      ring
  · have hd' : (descTruthy repo.description && descTruthy originalRepo.description) = false := by
      revert hd
      cases descTruthy repo.description && descTruthy originalRepo.description <;> simp
    have hz : (commonWordCount repo originalRepo : ℚ) = 0 := by
      rcases Bool.and_eq_false_iff.mp hd' with h | h
      · rw [commonWordCount_zero_left repo originalRepo h]
        rfl
      · rw [commonWordCount_zero_right repo originalRepo h]
        rfl
    rw [if_neg hd, hz]
    by_cases hl : jsLangEq repo.language originalRepo.language = true
    · rw [if_pos hl, if_pos hl]
      ring
    · rw [if_neg hl, if_neg hl]
      ring

/-- **C6 (counterexample).** At descriptions `"ab-cd wxyz"` vs
`"ab-cd qrst"` (same language, no topics, zero stars) the code scores `10`:
`\W+` tokenization splits `ab-cd` into the short tokens `ab`/`cd`, so no
shared word is longer than 3 characters.  The claimed whitespace
tokenization keeps `ab-cd` as one shared 5-character word and predicts
`12`. -/
theorem c6_counterexample :
    calculateRelevanceScore demoDescCand demoDescTarget = 10 ∧
      specRelevanceScore demoDescCand demoDescTarget = 12 ∧
      (10 : ℚ) ≠ 12 := by
  refine ⟨?_, ?_, by norm_num⟩
  · rw [relevance_decomposition,
      show commonWordCount demoDescCand demoDescTarget = 0 from by decide]
    simp [demoDescCand, demoDescTarget, jsLangEq, topicOverlapCount, starRatioQ]
  · rw [specRelevanceScore,
      show specSharedWordCount demoDescCand demoDescTarget = 1 from by decide]
    simp [demoDescCand, demoDescTarget, jsLangEq, topicOverlapCount, starRatioQ]
    norm_num

/-- **C6 (amended).** The pairwise relevance score equals exactly: `10` if
the two language fields are strictly equal (else `0`), plus `5` per topic
occurring in both topic lists, plus
`5 × min(candidateStars, targetStars) / max(candidateStars, targetStars, 1)`
(`0`, not NaN and not negative, for a zero-star target), plus `2` per
distinct word longer than 3 characters shared case-insensitively by the two
descriptions — where words are the tokens between runs of non-word
characters (the JS `\W+` class), not whitespace-delimited tokens — with no
artificial cap on the word count. -/
theorem c6_amended_relevance_formula (repo originalRepo : CRepo) :
    calculateRelevanceScore repo originalRepo =
      (if jsLangEq repo.language originalRepo.language then 10 else 0)
        + 5 * (topicOverlapCount repo originalRepo : ℚ)
        + 5 * starRatioQ repo originalRepo
        + 2 * (commonWordCount repo originalRepo : ℚ) :=
  relevance_decomposition repo originalRepo

/-- **C7 (counterexample).** With a logarithm map sending `2` to the
non-zero value `7/10` (as the real `Math.log(2)` is non-zero), a shared
non-owner contributor with `1` contribution gets weight `7/5` from the code
— `2 × log(2)` — while the claimed formula `log(2) × 1` gives `7/10`: the
code multiplies every contributor weight by an extra factor of `2`. -/
theorem c7_counterexample :
    contributorWeight demoLog 1 false = 7 / 5 ∧
      specContributorWeight demoLog 1 false = 7 / 10 ∧
      (7 / 5 : ℚ) ≠ 7 / 10 := by
  refine ⟨?_, ?_, by norm_num⟩
  · rw [show contributorWeight demoLog 1 false = demoLog 2 * 2 from rfl,
      show demoLog 2 = 7 / 10 from rfl]
    norm_num
  · rw [show specContributorWeight demoLog 1 false = demoLog 2 * 1 from rfl,
      show demoLog 2 = 7 / 10 from rfl]
    norm_num

theorem foldl_add_map (g : (Nat × Bool) → ℚ) (l : List (Nat × Bool)) (c : ℚ) :
    l.foldl (fun acc e => acc + g e) c = c + (l.map g).sum := by
  induction l generalizing c with
  | nil => simp
  | cons e tl ih =>
    rw [List.foldl_cons, ih (c + g e), List.map_cons, List.sum_cons, add_assoc]

/-- **C7 (amended).** For every logarithm map, the per-contributor weight
the code adds is `2 × log(contributions_to_target + 1)` times the ownership
multiplier (`3` for a contributor owning the candidate repository, else
`1`), and a candidate's `contributor_score` is the sum of these weights over
its shared contributors. -/
theorem c7_amended_contributor_weight (log : Nat → ℚ)
    (shared : List (Nat × Bool)) :
    (∀ (contributions : Nat) (ownsRepo : Bool),
        contributorWeight log contributions ownsRepo
          = 2 * log (contributions + 1) * (if ownsRepo then 3 else 1)) ∧
      contributorScore log shared
        = (shared.map fun e =>
            2 * log (e.1 + 1) * (if e.2 then 3 else 1)).sum := by
  have hw : ∀ (contributions : Nat) (ownsRepo : Bool),
      contributorWeight log contributions ownsRepo
        = 2 * log (contributions + 1) * (if ownsRepo then 3 else 1) := by
    intro c o
    cases o <;> simp [contributorWeight] <;> ring
  refine ⟨hw, ?_⟩
  rw [contributorScore, foldl_add_map (fun e => contributorWeight log e.1 e.2), zero_add]
  congr 1
  exact List.map_congr_left fun e _ => hw e.1 e.2

/-- **C8 (counterexample).** For the concrete target `demoTarget`, which
has no dependencies, the `Dependencies` builder produces the empty query —
and `executeSearchStrategy` does not skip: it issues exactly one search
request whose query string is empty, rather than issuing none. -/
theorem c8_counterexample :
    buildDependencyQuery demoTarget = "" ∧
      (executeSearchStrategy demoSearch [] "Dependencies" demoTarget).issuedQueries
        = [""] ∧
      ([""] : List String) ≠ [] := by
  refine ⟨rfl, rfl, by simp⟩

/-- **C8 (amended).** When the target has no dependencies the `Dependencies`
builder returns the empty query string, and the strategy executor still
issues the search request with that empty query (the executor never tests
the query for emptiness); the strategy yields no candidates only because the
underlying search client swallows the upstream failure. -/
theorem c8_amended_empty_query_still_issued (search : String → List RawRepo)
    (t : CRepo) (h : t.dependencies = []) :
    buildDependencyQuery t = "" ∧
      (executeSearchStrategy search [] "Dependencies" t).issuedQueries = [""] := by
  have hq : buildDependencyQuery t = "" := by
    simp [buildDependencyQuery, h]
  refine ⟨hq, ?_⟩
  simp [executeSearchStrategy, alookup, buildQueryFor, hq]

/-- Witness for the amended C8 at the dependency-free target `demoTarget`. -/
theorem c8_witness :
    buildDependencyQuery demoTarget = "" ∧
      (executeSearchStrategy demoSearch [] "Dependencies" demoTarget).issuedQueries
        = [""] :=
  c8_amended_empty_query_still_issued demoSearch demoTarget rfl

/-- **C9.** Every candidate returned by the semantic vector search carries
`score = 10` (the strategy's base weight), a `relevanceScore` equal to its
cosine similarity times `20`, a `finalScore` of `10 + s × 20` before any
other signal is folded in, the `ai_enhanced` flag, and the
`Semantic Vector Search` strategy label.  (The path runs only when a stored
embedding exists for the target, part_000 line 359.) -/
theorem c9_semantic_boost (rows : List SemRow) (c : SemCandidate)
    (h : c ∈ findSimilarByEmbedding rows) :
    c.score = 10 ∧ c.relevanceScore = c.semantic_similarity * 20 ∧
      c.finalScore = 10 + c.semantic_similarity * 20 ∧
      c.ai_enhanced = true ∧ c.strategy = "Semantic Vector Search" := by
  simp only [findSimilarByEmbedding, List.mem_map] at h
  obtain ⟨row, hrow, hmap⟩ := h
  rw [← hmap]
  exact ⟨rfl, rfl, rfl, rfl, rfl⟩

/-- Witness for C9 at the concrete row `demoSemRow`. -/
theorem c9_witness :
    demoSemCandidate.score = 10 ∧
      demoSemCandidate.relevanceScore = demoSemCandidate.semantic_similarity * 20 ∧
      demoSemCandidate.finalScore = 10 + demoSemCandidate.semantic_similarity * 20 ∧
      demoSemCandidate.ai_enhanced = true ∧
      demoSemCandidate.strategy = "Semantic Vector Search" :=
  c9_semantic_boost [demoSemRow] demoSemCandidate
    (by simp [demoSemCandidate, findSimilarByEmbedding])

/-- **C10 (counterexample).** A candidate whose language field is `null`
scored against a target whose language field is `undefined` — both "no
detected language" — gets relevance `0`, not the claimed `+10`: strict
equality between `null` and `undefined` fails, so the bonus is not awarded
for every pair of absent language values. -/
theorem c10_counterexample :
    calculateRelevanceScore demoNullLang demoUndefLang = 0 ∧ (0 : ℚ) ≠ 10 := by
  refine ⟨?_, by norm_num⟩
  simp [calculateRelevanceScore, demoNullLang, demoUndefLang, jsLangEq,
    topicOverlapCount, starRatioQ, descTruthy]

/-- **C10 (amended).** When the two language fields hold the same absent
value — both `null`, or both `undefined` — the strict equality test
succeeds and the `+10` exact-language-match bonus is awarded even though no
language is present on either repository; only the mixed `null` vs
`undefined` pair misses the bonus. -/
theorem c10_amended_absent_language_bonus (repo originalRepo : CRepo)
    (habs : repo.language = JsLang.jsNull ∨ repo.language = JsLang.jsUndefined)
    (hsame : originalRepo.language = repo.language) :
    calculateRelevanceScore repo originalRepo =
      10 + 5 * (topicOverlapCount repo originalRepo : ℚ)
        + 5 * starRatioQ repo originalRepo
        + 2 * (commonWordCount repo originalRepo : ℚ) := by
  rw [relevance_decomposition, hsame]
  rcases habs with h | h <;> rw [h] <;> norm_num [jsLangEq]

/-- Witness for the amended C10 at two repositories with `null` languages. -/
theorem c10_witness :
    calculateRelevanceScore demoNullLang demoNullLang2 =
      10 + 5 * (topicOverlapCount demoNullLang demoNullLang2 : ℚ)
        + 5 * starRatioQ demoNullLang demoNullLang2
        + 2 * (commonWordCount demoNullLang demoNullLang2 : ℚ) :=
  c10_amended_absent_language_bonus demoNullLang demoNullLang2
    (Or.inl rfl) rfl
